import Mathlib

/-!
Verification of the ngbuild GitHub integration
(`src/integrations/github/github.go`) against its specification.

The Go source is shallowly embedded: the mutable `Github` struct state
(tracked pull requests, tracked builds, OAuth client) becomes explicit
state values threaded through pure functions, and the side effects that
matter to the spec (build stop requests, build submissions, condition
broadcasts) are collected into result values.  External collaborators
(the build engine, the GitHub API, the OAuth token endpoint) are
parameters: functions supplied to each operation.
-/

namespace NgbuildGithub

/-- Repository identity as carried in a pull-request payload:
`Owner.Login`, `Name`, `SSHURL`. -/
structure RepoInfo where
  owner : String
  name : String
  sshURL : String
  deriving DecidableEq, Repr

/-- One side of a pull request (`pull.Head` / `pull.Base`):
branch name (`Ref`), commit hash (`SHA`) and the repository. -/
structure BranchInfo where
  ref : String
  sha : String
  repo : RepoInfo
  deriving DecidableEq, Repr

/-- The pull-request fields the integration dereferences:
`ID`, `Number`, `Title`, `HTMLURL`, `Head`, `Base`, `User.Login`. -/
structure PullRequest where
  id : Int
  number : Int
  title : String
  htmlURL : String
  head : BranchInfo
  base : BranchInfo
  user : String
  deriving DecidableEq, Repr

/-- `github.PullRequestEvent`: the `PullRequest` field may be nil. -/
structure PullRequestEvent where
  pullRequest : Option PullRequest
  deriving DecidableEq, Repr

/-- Go struct `pullRequestStatus`: latest pull snapshot, the token of the
most recently submitted build (`currentBuild`, empty when none), and the
`mergeOnPass` flag. -/
structure pullRequestStatus where
  pull : PullRequest
  currentBuild : String
  mergeOnPass : Bool
  deriving DecidableEq, Repr

/-- Go struct `githubConfig` (the fields the tracker and registrar read). -/
structure githubConfig where
  clientID : String
  clientSecret : String
  owner : String
  repo : String
  ignoredBranches : List String
  publicKey : String
  buildBranches : List String
  cancelOnNewCommit : Bool
  mergeOnPass : Bool
  mergeOnPassAuthWords : List String
  deriving DecidableEq, Repr

/-- Modelled from the spec: a `core.Build` handle as the integration sees
it (the build engine is an external collaborator, §6): an opaque token and
the recorded metadata key/value pairs, read through `GetMetadata`. -/
structure Build where
  token : String
  meta : List (String × String)
  deriving DecidableEq, Repr

/-- Metadata lookup on a build handle; a key that was never set reads as
the empty string. -/
def Build.getMetadata (b : Build) (key : String) : String :=
  match b.meta.lookup key with
  | some v => v
  | none => ""

/-- `core.BuildConfig` as populated by `buildPullRequest`. -/
structure BuildConfig where
  title : String
  url : String
  headRepo : String
  headBranch : String
  headHash : String
  baseRepo : String
  baseBranch : String
  baseHash : String
  group : String
  metadata : List (String × String)
  deriving DecidableEq, Repr

/-- Modelled from the spec: the external collaborators reached from the
tracker (§6).  `isCollaborator owner repo user` is the GitHub
collaborator query (`Except` for query failure); `getBuild` is the build
engine's `lookup(token) -> handle or failure`; `newBuild group config` is
`submit -> token or failure`. -/
structure Engine where
  isCollaborator : String → String → String → Except Unit Bool
  getBuild : String → Option Build
  newBuild : String → BuildConfig → Option String

/-- The `trackedPullRequests` map, keyed by the decimal string of the
pull-request ID. -/
abbrev PRMap := List (String × pullRequestStatus)

/-- Go map read `g.trackedPullRequests[pullID]`. -/
def lookupPR : PRMap → String → Option pullRequestStatus
  | [], _ => none
  | (k, v) :: rest, key => if k == key then some v else lookupPR rest key

/-- Go map delete `delete(g.trackedPullRequests, pullID)`. -/
def erasePR (m : PRMap) (k : String) : PRMap :=
  m.filter (fun p => p.1 != k)

/-- Go map write `g.trackedPullRequests[pullID] = status` (replaces any
previous binding). -/
def insertPR (m : PRMap) (k : String) (v : pullRequestStatus) : PRMap :=
  (k, v) :: erasePR m k

/-- The observable outcome of one tracker operation: the new
`trackedPullRequests` map, the build tokens on which `Stop()` was
requested, and the `(group, config)` submissions handed to the engine's
`NewBuild`, each in program order. -/
structure StepResult where
  prs : PRMap
  stops : List String
  submits : List (String × BuildConfig)
  deriving DecidableEq, Repr

/-- `strconv.Itoa(*pull.ID)`. -/
def pullIDString (pull : PullRequest) : String :=
  toString pull.id

/-- The `core.BuildConfig` that `buildPullRequest` constructs from the
pull request (github.go lines 351–384), fields and metadata tags in
source order. -/
def mkBuildConfig (pull : PullRequest) : BuildConfig :=
  { title := pull.title
    url := pull.htmlURL
    headRepo := pull.head.repo.sshURL
    headBranch := pull.head.ref
    headHash := pull.head.sha
    baseRepo := pull.base.repo.sshURL
    baseBranch := pull.base.ref
    baseHash := ""
    group := pullIDString pull
    metadata :=
      [("github:BuildType", "pullrequest"),
       ("github:PullRequestID", pullIDString pull),
       ("github:PullNumber", toString pull.number),
       ("github:HeadHash", pull.head.sha),
       ("github:HeadOwner", pull.head.repo.owner),
       ("github:HeadRepo", pull.head.repo.name),
       ("github:BaseHash", pull.base.sha),
       ("github:BaseOwner", pull.base.repo.owner),
       ("github:BaseRepo", pull.base.repo.name)] }

/-- `Github.buildPullRequest` (github.go lines 328–401).  Looks up the
tracked status (inserting a zero-value one when absent), suppresses the
duplicate head commit, optionally stops the superseded build, then
submits and records the returned token when it resolves to a build. -/
def buildPullRequest (cfg : githubConfig) (eng : Engine) (pull : PullRequest)
    (prs0 : PRMap) : StepResult :=
  let pullID := pullIDString pull
  let found := lookupPR prs0 pullID
  let status := match found with
    | some s => s
    | none => { pull := pull, currentBuild := "", mergeOnPass := false }
  let prs := match found with
    | some _ => prs0
    | none => insertPR prs0 pullID status
  -- `if build, _ := app.app.GetBuild(status.currentBuild); build != nil { ... }`
  let gate : Option (List String) :=
    match eng.getBuild status.currentBuild with
    | some build =>
      if build.getMetadata "github:HeadHash" == pull.head.sha then
        none  -- "Already building/built this commit" — early return
      else if cfg.cancelOnNewCommit then some [build.token]
      else some []
    | none => some []
  match gate with
  | none => { prs := prs, stops := [], submits := [] }
  | some stops =>
    let buildConfig := mkBuildConfig pull
    let submits := [(pullID, buildConfig)]
    match eng.newBuild buildConfig.group buildConfig with
    | none => { prs := prs, stops := stops, submits := submits }
    | some buildToken =>
      match eng.getBuild buildToken with
      | none => { prs := prs, stops := stops, submits := submits }
      | some _ =>
        { prs := insertPR prs pullID { status with currentBuild := buildToken }
          stops := stops
          submits := submits }

/-- `Github.trackPullRequest` (github.go lines 288–326): nil-pull guard,
collaborator gate (fail-closed on query error), ignored-branch filter,
then upsert of a fresh entry and `buildPullRequest`. -/
def trackPullRequest (cfg : githubConfig) (eng : Engine)
    (event : PullRequestEvent) (prs : PRMap) : StepResult :=
  match event.pullRequest with
  | none => { prs := prs, stops := [], submits := [] }
  | some pull =>
    let pullID := pullIDString pull
    match eng.isCollaborator pull.base.repo.owner pull.base.repo.name pull.user with
    | .error _ => { prs := prs, stops := [], submits := [] }
    | .ok false => { prs := prs, stops := [], submits := [] }
    | .ok true =>
      if cfg.ignoredBranches.contains pull.base.ref then
        { prs := prs, stops := [], submits := [] }
      else
        let prs1 := insertPR prs pullID
          { pull := pull, currentBuild := "", mergeOnPass := false }
        buildPullRequest cfg eng pull prs1

/-- `Github.updatePullRequest` (github.go lines 403–418), for events whose
pull-request field is non-nil (the source dereferences it
unconditionally): an untracked identifier re-enters through
`trackPullRequest`, a tracked one goes straight to `buildPullRequest`. -/
def updatePullRequest (cfg : githubConfig) (eng : Engine) (pull : PullRequest)
    (prs : PRMap) : StepResult :=
  let pullID := pullIDString pull
  match lookupPR prs pullID with
  | none => trackPullRequest cfg eng { pullRequest := some pull } prs
  | some _ => buildPullRequest cfg eng pull prs

/-- `Github.closedPullRequest` (github.go lines 420–436), for events whose
pull-request field is non-nil: stop the associated live build when
`CancelOnNewCommit` is set, then delete the entry unconditionally. -/
def closedPullRequest (cfg : githubConfig) (eng : Engine) (pull : PullRequest)
    (prs : PRMap) : StepResult :=
  let pullID := pullIDString pull
  match lookupPR prs pullID with
  | none => { prs := prs, stops := [], submits := [] }
  | some status =>
    let stops :=
      match eng.getBuild status.currentBuild with
      | some build => if cfg.cancelOnNewCommit then [build.token] else []
      | none => []
    { prs := erasePR prs pullID, stops := stops, submits := [] }

/-- `Github.trackBuild` (github.go lines 260–268): no-op when a build
with the same token is already in `trackedBuilds`, otherwise `Ref()` the
build and append it.  The boolean reports whether a reference was
acquired. -/
def trackBuild (tracked : List Build) (build : Build) : List Build × Bool :=
  if tracked.any (fun t => t.token == build.token) then (tracked, false)
  else (tracked ++ [build], true)

/-- `Github.untrackBuild` (github.go lines 271–286): locate the first
tracked build with the same token; when absent do nothing, otherwise
`Unref()` it and splice it out.  The number counts `Unref()` calls. -/
def untrackBuild (tracked : List Build) (build : Build) : List Build × Nat :=
  match tracked.findIdx? (fun t => t.token == build.token) with
  | none => (tracked, 0)
  | some i => (tracked.eraseIdx i, 1)

/-- The OAuth-relevant mutable state of `Github`: the installed API
client (represented by the access token it was built from, `none` before
`setClient` ever ran), the number of `clientHasSet.Broadcast()` calls
issued, and the persisted cache (`core.StoreCache`). -/
structure OAuthSession where
  client : Option String
  broadcasts : Nat
  cache : List (String × String)
  deriving DecidableEq, Repr

/-- Association-list overwrite used for the persisted cache. -/
def storeCache (cache : List (String × String)) (key value : String) :
    List (String × String) :=
  (key, value) :: cache.filter (fun p => p.1 != key)

/-- `Github.setClient` (github.go lines 123–129): install the client
built from the token and broadcast readiness to all waiters. -/
def setClient (s : OAuthSession) (accessToken : String) : OAuthSession :=
  { s with client := some accessToken, broadcasts := s.broadcasts + 1 }

/-- `Github.handleGithubAuth` (github.go lines 91–112).  `exchange` is
the provider token endpoint (`cfg.Exchange`, failure = `none`); `nonce`
is the process-wide `oauth2State`.  Returns the new session state and
the HTTP response body written. -/
def handleGithubAuth (exchange : String → Option String) (nonce : String)
    (state code : String) (s : OAuthSession) : OAuthSession × String :=
  if state != nonce then
    (s, "OAuth2 state was incorrect, something bad happened between Github and us")
  else
    match exchange code with
    | none =>
      (s, "Error exchanging OAuth code, something bad happened between Github and us")
    | some accessToken =>
      let s1 := { s with cache := storeCache s.cache "github:token" accessToken }
      (setClient s1 accessToken, "Thanks! you can close this tab now.")

/-- A `github.Hook` as built by `setupHooks`. -/
structure Hook where
  name : String
  active : Bool
  configURL : String
  configContentType : String
  events : List String
  deriving DecidableEq, Repr

/-- The callback URL `fmt.Sprintf("%s/cb/github/hook/%s", serverURL,
appName)` (github.go line 232). -/
def hookURL (serverURL appName : String) : String :=
  serverURL ++ "/cb/github/hook/" ++ appName

/-- The hook that `Github.setupHooks` asks the provider to create
(github.go lines 233–248), with its literal event list. -/
def setupHooksHook (serverURL appName : String) : Hook :=
  { name := "web"
    active := true
    configURL := hookURL serverURL appName
    configContentType := "json"
    events :=
      ["pull_request",
       "delete",
       "issue_comment",
       "pull_request_review",
       "pull_request_review_event",
       "push",
       "status"] }

/-- Whether `sub` occurs at the start of `l`. -/
def subAt : List Char → List Char → Bool
  | [], _ => true
  | _ :: _, [] => false
  | a :: as, b :: bs => a == b && subAt as bs

/-- Whether `sub` occurs anywhere in `l`. -/
def hasSubList (l sub : List Char) : Bool :=
  match l with
  | [] => sub.isEmpty
  | _ :: rest => subAt sub l || hasSubList rest sub

/-- `strings.Contains`. -/
def containsSub (s sub : String) : Bool :=
  hasSubList s.toList sub.toList

/-- Outcome of `Github.setupHooks` (github.go lines 224–254). -/
inductive HookSetupOutcome where
  | repoMissing   -- repository lookup failed: warn and leave unattached
  | createFailed  -- hook creation failed with a real error: warn
  | ok            -- hook created, or "Hook already exists"
  deriving DecidableEq, Repr

/-- Control flow of `Github.setupHooks`: `repoErr` is the result of the
repository existence check, `createErr` the error text returned by
`CreateHook` (if any).  An error containing "Hook already exists" is
success. -/
def setupHooks (repoErr : Option String) (createErr : Option String) :
    HookSetupOutcome :=
  match repoErr with
  | some _ => .repoMissing
  | none =>
    match createErr with
    | some e =>
      if containsSub e "Hook already exists" then .ok else .createFailed
    | none => .ok

/-! ### Map helper lemmas -/

theorem lookupPR_insertPR_self (m : PRMap) (k : String) (v : pullRequestStatus) :
    lookupPR (insertPR m k v) k = some v := by
  simp [insertPR, lookupPR]

theorem lookupPR_erasePR_self (m : PRMap) (k : String) :
    lookupPR (erasePR m k) k = none := by
  induction m with
  | nil => rfl
  | cons p m ih =>
    by_cases h : p.1 = k
    · simpa [erasePR, List.filter, h] using ih
    · have hb : (p.1 == k) = false := by simpa using h
      simp only [erasePR, List.filter, bne, hb] at ih ⊢
      simpa [lookupPR, hb] using ih

theorem lookupPR_erasePR_other (m : PRMap) (k k' : String) (h : k ≠ k') :
    lookupPR (erasePR m k) k' = lookupPR m k' := by
  induction m with
  | nil => rfl
  | cons p m ih =>
    by_cases hp : p.1 = k
    · have hq' : (p.1 == k') = false := by
        simp only [beq_eq_false_iff_ne, ne_eq, hp]
        exact h
      simp only [erasePR, List.filter, bne, hp, beq_self_eq_true, Bool.not_true] at ih ⊢
      rw [ih]
      simp [lookupPR, hq']
    · have hpk : (p.1 == k) = false := by simpa using hp
      simp only [erasePR, List.filter, bne, hpk, Bool.not_false] at ih ⊢
      simp only [lookupPR]
      by_cases hq : p.1 = k'
      · simp [hq]
      · have hq' : (p.1 == k') = false := by simpa using hq
        simpa [hq', erasePR] using ih

theorem lookupPR_insertPR_other (m : PRMap) (k k' : String)
    (v : pullRequestStatus) (h : k ≠ k') :
    lookupPR (insertPR m k v) k' = lookupPR m k' := by
  have hb : (k == k') = false := by simpa using h
  simp only [insertPR, lookupPR, hb, if_false]
  exact lookupPR_erasePR_other m k k' h

/-! ### Concrete inputs used by the witness theorems -/

def exBaseRepo : RepoInfo :=
  { owner := "watchly", name := "ngbuild", sshURL := "git@github.com:watchly/ngbuild.git" }

def exHeadRepo : RepoInfo :=
  { owner := "alice", name := "ngbuild", sshURL := "git@github.com:alice/ngbuild.git" }

def exPull : PullRequest :=
  { id := 99002, number := 42, title := "Add feature"
    htmlURL := "https://github.com/watchly/ngbuild/pull/42"
    head := { ref := "feature", sha := "abc123", repo := exHeadRepo }
    base := { ref := "master", sha := "base999", repo := exBaseRepo }
    user := "alice" }

def exCfg : githubConfig :=
  { clientID := "id", clientSecret := "secret"
    owner := "watchly", repo := "ngbuild"
    ignoredBranches := ["release"], publicKey := "ssh-rsa AAA"
    buildBranches := ["master"], cancelOnNewCommit := true
    mergeOnPass := true, mergeOnPassAuthWords := ["LGTM"] }

/-- Engine that rejects the author as a collaborator. -/
def engDeny : Engine :=
  { isCollaborator := fun _ _ _ => .ok false
    getBuild := fun _ => none
    newBuild := fun _ _ => none }

/-- The build the engine returns for token `tok1` once `exPull` has been
submitted: its recorded head hash is `exPull`'s head commit. -/
def exBuild1 : Build :=
  { token := "tok1", meta := [("github:HeadHash", "abc123")] }

/-- Engine that accepts the author and returns token `tok1` for any
submission; `tok1` resolves to `exBuild1`. -/
def engOK : Engine :=
  { isCollaborator := fun _ _ _ => .ok true
    getBuild := fun t => if t == "tok1" then some exBuild1 else none
    newBuild := fun _ _ => some "tok1" }

/-! ### Claim theorems -/

/-- C1: for every pull-request open/synchronize event, if the
collaborator query fails, or the author is not a collaborator on the base
repository, or the base branch is in the application's ignored-branch
list, then the event is dropped: `trackedPullRequests` is unchanged, no
build is stopped and no build is submitted. -/
theorem trackPullRequest_drops_unauthorized
    (cfg : githubConfig) (eng : Engine) (event : PullRequestEvent)
    (prs : PRMap) (pull : PullRequest)
    (hp : event.pullRequest = some pull)
    (h : eng.isCollaborator pull.base.repo.owner pull.base.repo.name pull.user = .error ()
       ∨ eng.isCollaborator pull.base.repo.owner pull.base.repo.name pull.user = .ok false
       ∨ pull.base.ref ∈ cfg.ignoredBranches) :
    trackPullRequest cfg eng event prs = { prs := prs, stops := [], submits := [] } := by
  unfold trackPullRequest
  rcases h with h | h | h
  · simp [hp, h]
  · simp [hp, h]
  · cases hcol : eng.isCollaborator pull.base.repo.owner pull.base.repo.name pull.user with
    | error e => simp [hp, hcol]
    | ok b => cases b <;> simp [hp, hcol, h]

theorem trackPullRequest_drops_unauthorized_witness :
    trackPullRequest exCfg engDeny { pullRequest := some exPull } [] =
      { prs := [], stops := [], submits := [] } :=
  trackPullRequest_drops_unauthorized exCfg engDeny { pullRequest := some exPull }
    [] exPull rfl (Or.inr (Or.inl rfl))

theorem mkBuildConfig_group (pull : PullRequest) :
    (mkBuildConfig pull).group = pullIDString pull := rfl

/-- Shared helper: a synchronize event on a tracked identifier goes
straight to `buildPullRequest`. -/
theorem updatePullRequest_tracked
    (cfg : githubConfig) (eng : Engine) (pull : PullRequest) (prs : PRMap)
    (status : pullRequestStatus)
    (h : lookupPR prs (pullIDString pull) = some status) :
    updatePullRequest cfg eng pull prs = buildPullRequest cfg eng pull prs := by
  unfold updatePullRequest
  simp [h]

/-- Shared helper: when the tracked entry's current token resolves to a
live build whose recorded head hash equals the pull's head commit,
`buildPullRequest` changes nothing, stops nothing and submits nothing. -/
theorem buildPullRequest_noop_of_same_head
    (cfg : githubConfig) (eng : Engine) (pull : PullRequest) (prs : PRMap)
    (status : pullRequestStatus) (build : Build)
    (hlk : lookupPR prs (pullIDString pull) = some status)
    (hb : eng.getBuild status.currentBuild = some build)
    (hh : build.getMetadata "github:HeadHash" = pull.head.sha) :
    buildPullRequest cfg eng pull prs = { prs := prs, stops := [], submits := [] } := by
  unfold buildPullRequest
  simp [hlk, hb, hh]

/-- C2: `submitBuild` is idempotent on the head commit.  First part: if
the entry's `currentBuild` token resolves to a live build whose recorded
`github:HeadHash` metadata equals the pull's current head commit,
`buildPullRequest` is a no-op.  Second part: starting from an untracked
identifier, two synchronize events with the identical head commit yield
exactly one submission — the first event submits once, the second
submits nothing and leaves the map unchanged. -/
theorem submitBuild_idempotent_on_head :
    (∀ (cfg : githubConfig) (eng : Engine) (pull : PullRequest) (prs : PRMap)
        (status : pullRequestStatus) (build : Build),
       lookupPR prs (pullIDString pull) = some status →
       eng.getBuild status.currentBuild = some build →
       build.getMetadata "github:HeadHash" = pull.head.sha →
       buildPullRequest cfg eng pull prs = { prs := prs, stops := [], submits := [] })
    ∧
    (∀ (cfg : githubConfig) (eng : Engine) (pull : PullRequest) (prs : PRMap)
        (tok : String) (build : Build),
       lookupPR prs (pullIDString pull) = none →
       eng.isCollaborator pull.base.repo.owner pull.base.repo.name pull.user = .ok true →
       cfg.ignoredBranches.contains pull.base.ref = false →
       eng.getBuild "" = none →
       eng.newBuild (pullIDString pull) (mkBuildConfig pull) = some tok →
       eng.getBuild tok = some build →
       build.getMetadata "github:HeadHash" = pull.head.sha →
       (updatePullRequest cfg eng pull prs).submits.length = 1 ∧
       (updatePullRequest cfg eng pull (updatePullRequest cfg eng pull prs).prs).submits
         = [] ∧
       (updatePullRequest cfg eng pull (updatePullRequest cfg eng pull prs).prs).prs
         = (updatePullRequest cfg eng pull prs).prs) := by
  constructor
  · exact fun cfg eng pull prs status build hlk hb hh =>
      buildPullRequest_noop_of_same_head cfg eng pull prs status build hlk hb hh
  · intro cfg eng pull prs tok build h0 hcol hbr hge hnb hgt hmeta
    have e1 : updatePullRequest cfg eng pull prs =
        { prs := insertPR
            (insertPR prs (pullIDString pull)
              { pull := pull, currentBuild := "", mergeOnPass := false })
            (pullIDString pull)
            { pull := pull, currentBuild := tok, mergeOnPass := false }
          stops := []
          submits := [(pullIDString pull, mkBuildConfig pull)] } := by
      have hbr' : pull.base.ref ∉ cfg.ignoredBranches := by simpa using hbr
      unfold updatePullRequest trackPullRequest buildPullRequest
      simp [h0, hcol, hbr', hge, hnb, hgt, lookupPR_insertPR_self, mkBuildConfig_group]
    have hlk2 : lookupPR (updatePullRequest cfg eng pull prs).prs (pullIDString pull)
        = some { pull := pull, currentBuild := tok, mergeOnPass := false } := by
      rw [e1]
      exact lookupPR_insertPR_self _ _ _
    have e2 : updatePullRequest cfg eng pull (updatePullRequest cfg eng pull prs).prs
        = { prs := (updatePullRequest cfg eng pull prs).prs, stops := [], submits := [] } := by
      rw [updatePullRequest_tracked cfg eng pull _ _ hlk2]
      exact buildPullRequest_noop_of_same_head cfg eng pull _ _ build hlk2 hgt hmeta
    refine ⟨?_, ?_, ?_⟩
    · rw [e1]; rfl
    · rw [e2]
    · rw [e2]

theorem submitBuild_idempotent_on_head_witness :
    (updatePullRequest exCfg engOK exPull []).submits.length = 1 ∧
    (updatePullRequest exCfg engOK exPull (updatePullRequest exCfg engOK exPull []).prs).submits
      = [] ∧
    (updatePullRequest exCfg engOK exPull (updatePullRequest exCfg engOK exPull []).prs).prs
      = (updatePullRequest exCfg engOK exPull []).prs :=
  submitBuild_idempotent_on_head.2 exCfg engOK exPull [] "tok1" exBuild1
    rfl rfl rfl rfl rfl (by decide) rfl

/-- The build previously submitted for `exPull`: its recorded head hash
is an older commit. -/
def exOldBuild : Build :=
  { token := "tokOld", meta := [("github:HeadHash", "oldhash")] }

/-- Engine for the supersession scenario: the old token resolves to
`exOldBuild`, a fresh submission returns `tok2`, and `tok2` resolves. -/
def engSuper : Engine :=
  { isCollaborator := fun _ _ _ => .ok true
    getBuild := fun t =>
      if t == "tokOld" then some exOldBuild
      else if t == "tok2" then some { token := "tok2", meta := [("github:HeadHash", "abc123")] }
      else none
    newBuild := fun _ _ => some "tok2" }

/-- A map in which `exPull` is tracked with the old build associated. -/
def exPrsTracked : PRMap :=
  [("99002", { pull := exPull, currentBuild := "tokOld", mergeOnPass := false })]

/-- C3: a synchronize event carrying a new head commit on a tracked pull
request whose current token resolves to a live build stops that build
exactly once when cancel-on-new-commit is enabled, and not at all when it
is disabled; in both cases exactly one new submission is made. -/
theorem supersession_stop_policy
    (cfg : githubConfig) (eng : Engine) (pull : PullRequest) (prs : PRMap)
    (status : pullRequestStatus) (build : Build)
    (hlk : lookupPR prs (pullIDString pull) = some status)
    (hb : eng.getBuild status.currentBuild = some build)
    (hne : build.getMetadata "github:HeadHash" ≠ pull.head.sha) :
    (updatePullRequest cfg eng pull prs).stops =
      (if cfg.cancelOnNewCommit then [build.token] else []) ∧
    (updatePullRequest cfg eng pull prs).submits =
      [(pullIDString pull, mkBuildConfig pull)] := by
  rw [updatePullRequest_tracked cfg eng pull prs status hlk]
  unfold buildPullRequest
  have hne' : (build.getMetadata "github:HeadHash" == pull.head.sha) = false := by
    simpa using hne
  cases hcc : cfg.cancelOnNewCommit with
  | false =>
    cases hnb : eng.newBuild (pullIDString pull) (mkBuildConfig pull) with
    | none => simp [hlk, hb, hne', hnb, mkBuildConfig_group]
    | some tok =>
      cases hgb : eng.getBuild tok <;>
        simp [hlk, hb, hne', hnb, hgb, mkBuildConfig_group]
  | true =>
    cases hnb : eng.newBuild (pullIDString pull) (mkBuildConfig pull) with
    | none => simp [hlk, hb, hne', hnb, mkBuildConfig_group]
    | some tok =>
      cases hgb : eng.getBuild tok <;>
        simp [hlk, hb, hne', hnb, hgb, mkBuildConfig_group]

theorem supersession_stop_policy_witness :
    (updatePullRequest exCfg engSuper exPull exPrsTracked).stops =
      (if exCfg.cancelOnNewCommit then [exOldBuild.token] else []) ∧
    (updatePullRequest exCfg engSuper exPull exPrsTracked).submits =
      [(pullIDString exPull, mkBuildConfig exPull)] :=
  supersession_stop_policy exCfg engSuper exPull exPrsTracked
    { pull := exPull, currentBuild := "tokOld", mergeOnPass := false }
    exOldBuild rfl rfl (by decide)

/-- C4: on a closed event the tracking entry is always removed when it
exists, regardless of the cancel-on-new-commit setting; the associated
build is stopped only when cancel-on-new-commit is enabled and the
current token resolves to a live build; a closed event for an untracked
identifier changes nothing; nothing is ever submitted. -/
theorem closedPullRequest_spec
    (cfg : githubConfig) (eng : Engine) (pull : PullRequest) (prs : PRMap) :
    (closedPullRequest cfg eng pull prs).submits = [] ∧
    lookupPR (closedPullRequest cfg eng pull prs).prs (pullIDString pull) = none ∧
    (closedPullRequest cfg eng pull prs).prs =
      (match lookupPR prs (pullIDString pull) with
       | none => prs
       | some _ => erasePR prs (pullIDString pull)) ∧
    (closedPullRequest cfg eng pull prs).stops =
      (match lookupPR prs (pullIDString pull) with
       | none => []
       | some status =>
         match eng.getBuild status.currentBuild with
         | some build => if cfg.cancelOnNewCommit then [build.token] else []
         | none => []) := by
  unfold closedPullRequest
  cases hlk : lookupPR prs (pullIDString pull) with
  | none => simp [hlk]
  | some status =>
    cases hgb : eng.getBuild status.currentBuild with
    | none => simp [hlk, hgb, lookupPR_erasePR_self]
    | some build =>
      cases hcc : cfg.cancelOnNewCommit <;> simp [hlk, hgb, lookupPR_erasePR_self]

/-- Token endpoint used by the OAuth witness: only `goodcode` exchanges
successfully. -/
def exExchange : String → Option String :=
  fun code => if code == "goodcode" then some "tokTOK" else none

/-- Session state before any client has been installed. -/
def exSession0 : OAuthSession :=
  { client := none, broadcasts := 0, cache := [] }

/-- C5: an OAuth callback whose `state` differs from the process nonce
leaves the session untouched (no client installed, no broadcast, no
cache write); so does a failed code exchange; only a successful exchange
persists the token, installs the client and broadcasts readiness. -/
theorem handleGithubAuth_state_gate
    (exchange : String → Option String) (nonce state code : String)
    (s : OAuthSession) :
    (state ≠ nonce →
       (handleGithubAuth exchange nonce state code s).1 = s) ∧
    (exchange code = none →
       (handleGithubAuth exchange nonce state code s).1 = s) ∧
    (∀ accessToken, state = nonce → exchange code = some accessToken →
       (handleGithubAuth exchange nonce state code s).1 =
         { client := some accessToken
           broadcasts := s.broadcasts + 1
           cache := storeCache s.cache "github:token" accessToken }) := by
  refine ⟨?_, ?_, ?_⟩
  · intro h
    simp [handleGithubAuth, h]
  · intro h
    unfold handleGithubAuth
    by_cases hs : state = nonce
    · simp [hs, h]
    · simp [hs]
  · intro accessToken hs he
    simp [handleGithubAuth, hs, he, setClient]

theorem handleGithubAuth_state_gate_witness :
    (handleGithubAuth exExchange "nonce1" "nonce1" "goodcode" exSession0).1 =
      { client := some "tokTOK"
        broadcasts := exSession0.broadcasts + 1
        cache := storeCache exSession0.cache "github:token" "tokTOK" } :=
  (handleGithubAuth_state_gate exExchange "nonce1" "nonce1" "goodcode" exSession0).2.2
    "tokTOK" rfl rfl

/-- Engine whose build submission fails; the old token still resolves. -/
def engFail : Engine :=
  { isCollaborator := fun _ _ _ => .ok true
    getBuild := fun t => if t == "tokOld" then some exOldBuild else none
    newBuild := fun _ _ => none }

/-- C6: if build submission fails, the tracking map — in particular the
entry's `currentBuild` token — is left unchanged; if submission succeeds
and the returned token resolves to a build, that token is stored as the
entry's new `currentBuild`. -/
theorem buildPullRequest_submit_atomicity
    (cfg : githubConfig) (eng : Engine) (pull : PullRequest) (prs : PRMap)
    (status : pullRequestStatus)
    (hlk : lookupPR prs (pullIDString pull) = some status)
    (hno : eng.getBuild status.currentBuild = none ∨
           ∃ b, eng.getBuild status.currentBuild = some b ∧
                b.getMetadata "github:HeadHash" ≠ pull.head.sha) :
    (eng.newBuild (pullIDString pull) (mkBuildConfig pull) = none →
       (buildPullRequest cfg eng pull prs).prs = prs) ∧
    (∀ tok build, eng.newBuild (pullIDString pull) (mkBuildConfig pull) = some tok →
       eng.getBuild tok = some build →
       lookupPR (buildPullRequest cfg eng pull prs).prs (pullIDString pull) =
         some { status with currentBuild := tok }) := by
  unfold buildPullRequest
  rcases hno with hgb | ⟨b, hgb, hne⟩
  · refine ⟨?_, ?_⟩
    · intro hnb
      simp [hlk, hgb, hnb, mkBuildConfig_group]
    · intro tok build hnb hgt
      simp [hlk, hgb, hnb, hgt, mkBuildConfig_group, lookupPR_insertPR_self]
  · have hne' : (b.getMetadata "github:HeadHash" == pull.head.sha) = false := by
      simpa using hne
    cases hcc : cfg.cancelOnNewCommit with
    | false =>
      refine ⟨?_, ?_⟩
      · intro hnb
        simp [hlk, hgb, hne', hnb, mkBuildConfig_group]
      · intro tok build hnb hgt
        simp [hlk, hgb, hne', hnb, hgt, mkBuildConfig_group, lookupPR_insertPR_self]
    | true =>
      refine ⟨?_, ?_⟩
      · intro hnb
        simp [hlk, hgb, hne', hnb, mkBuildConfig_group]
      · intro tok build hnb hgt
        simp [hlk, hgb, hne', hnb, hgt, mkBuildConfig_group, lookupPR_insertPR_self]

theorem buildPullRequest_submit_atomicity_witness :
    (buildPullRequest exCfg engFail exPull exPrsTracked).prs = exPrsTracked ∧
    lookupPR (buildPullRequest exCfg engSuper exPull exPrsTracked).prs
        (pullIDString exPull) =
      some { pull := exPull, currentBuild := "tok2", mergeOnPass := false } :=
  ⟨(buildPullRequest_submit_atomicity exCfg engFail exPull exPrsTracked
      { pull := exPull, currentBuild := "tokOld", mergeOnPass := false } rfl
      (Or.inr ⟨exOldBuild, rfl, by decide⟩)).1 rfl,
   (buildPullRequest_submit_atomicity exCfg engSuper exPull exPrsTracked
      { pull := exPull, currentBuild := "tokOld", mergeOnPass := false } rfl
      (Or.inr ⟨exOldBuild, rfl, by decide⟩)).2 "tok2"
      { token := "tok2", meta := [("github:HeadHash", "abc123")] } rfl rfl⟩

/-! ### Ledger helper lemmas -/

theorem findIdx?_start_shift {α : Type} (p : α → Bool) (l : List α) (i : Nat) :
    List.findIdx? p l i = (List.findIdx? p l 0).map (· + i) := by
  induction l generalizing i with
  | nil => rfl
  | cons a l ih =>
    by_cases h : p a
    · simp [List.findIdx?, h]
    · simp only [List.findIdx?, h, if_false, Bool.false_eq_true]
      rw [ih (i + 1), ih 1]
      cases List.findIdx? p l 0 with
      | none => rfl
      | some x => simp; omega

theorem untrackBuild_cons (t : Build) (ts : List Build) (b : Build) :
    untrackBuild (t :: ts) b =
      if t.token == b.token then (ts, 1)
      else (t :: (untrackBuild ts b).1, (untrackBuild ts b).2) := by
  unfold untrackBuild
  cases h : t.token == b.token with
  | true => simp [List.findIdx?, h]
  | false =>
    simp only [List.findIdx?, h, if_false, Bool.false_eq_true]
    rw [findIdx?_start_shift]
    cases List.findIdx? (fun x => x.token == b.token) ts 0 with
    | none => rfl
    | some i => simp [List.eraseIdx]

theorem untrackBuild_sublist (tracked : List Build) (b : Build) :
    (untrackBuild tracked b).1.Sublist tracked := by
  unfold untrackBuild
  cases List.findIdx? (fun t => t.token == b.token) tracked 0 with
  | none => exact List.Sublist.refl _
  | some i => exact List.eraseIdx_sublist tracked i

/-- C7: the build-ledger invariant.  Token uniqueness is preserved by
both operations; `trackBuild` is a no-op on an already-present token and
otherwise appends the build acquiring exactly one reference;
`untrackBuild` of an absent token is a no-op, and of a present token
(under the uniqueness invariant) removes exactly that build and releases
exactly one reference. -/
theorem ledger_invariant (tracked : List Build) (b : Build) :
    ((tracked.map Build.token).Nodup →
       ((trackBuild tracked b).1.map Build.token).Nodup ∧
       ((untrackBuild tracked b).1.map Build.token).Nodup) ∧
    ((∃ t ∈ tracked, t.token = b.token) →
       trackBuild tracked b = (tracked, false)) ∧
    ((∀ t ∈ tracked, t.token ≠ b.token) →
       trackBuild tracked b = (tracked ++ [b], true)) ∧
    ((∀ t ∈ tracked, t.token ≠ b.token) →
       untrackBuild tracked b = (tracked, 0)) ∧
    ((tracked.map Build.token).Nodup → (∃ t ∈ tracked, t.token = b.token) →
       (untrackBuild tracked b).2 = 1 ∧
       (∀ t ∈ (untrackBuild tracked b).1, t.token ≠ b.token) ∧
       (untrackBuild tracked b).1.length + 1 = tracked.length) := by
  refine ⟨?_, ?_, ?_, ?_, ?_⟩
  · intro hnd
    constructor
    · unfold trackBuild
      cases ha : tracked.any (fun t => t.token == b.token) with
      | true => simpa using hnd
      | false =>
        have habs : ∀ t ∈ tracked, t.token ≠ b.token := by
          intro t ht
          have := List.any_eq_false.mp ha t ht
          simpa using this
        simp only [if_false, Bool.false_eq_true]
        rw [List.map_append]
        rw [List.nodup_append]
        refine ⟨hnd, by simp, ?_⟩
        intro x hx hx'
        simp only [List.map_cons, List.map_nil, List.mem_singleton] at hx'
        rcases List.mem_map.mp hx with ⟨t, ht, rfl⟩
        exact habs t ht hx'
    · exact hnd.sublist ((untrackBuild_sublist tracked b).map Build.token)
  · intro ⟨t, ht, htok⟩
    have ha : tracked.any (fun t => t.token == b.token) = true :=
      List.any_eq_true.mpr ⟨t, ht, by simpa using htok⟩
    simp [trackBuild, ha]
  · intro habs
    have ha : tracked.any (fun t => t.token == b.token) = false :=
      List.any_eq_false.mpr (fun t ht => by simpa using habs t ht)
    simp [trackBuild, ha]
  · intro habs
    induction tracked with
    | nil => rfl
    | cons t ts ih =>
      have hne : (t.token == b.token) = false := by
        simpa using habs t (List.mem_cons_self t ts)
      rw [untrackBuild_cons, hne]
      have : untrackBuild ts b = (ts, 0) :=
        ih (fun x hx => habs x (List.mem_cons_of_mem t hx))
      simp [this]
  · intro hnd hmem
    induction tracked with
    | nil => exact absurd hmem (by simp)
    | cons t ts ih =>
      rw [untrackBuild_cons]
      have hndc : (t.token :: ts.map Build.token).Nodup := by simpa using hnd
      cases heq : t.token == b.token with
      | true =>
        have htb : t.token = b.token := by simpa using heq
        have hnotin : t.token ∉ ts.map Build.token := (List.nodup_cons.mp hndc).1
        refine ⟨rfl, ?_, rfl⟩
        intro x hx hx'
        simp only [if_true] at hx
        exact hnotin (htb ▸ hx' ▸ List.mem_map_of_mem Build.token hx)
      | false =>
        have htb : t.token ≠ b.token := by simpa using heq
        have hmem' : ∃ x ∈ ts, x.token = b.token := by
          rcases hmem with ⟨x, hx, hxtok⟩
          rcases List.mem_cons.mp hx with rfl | hx'
          · exact absurd hxtok htb
          · exact ⟨x, hx', hxtok⟩
        have hnd' : (ts.map Build.token).Nodup := (List.nodup_cons.mp hndc).2
        rcases ih hnd' hmem' with ⟨h1, h2, h3⟩
        refine ⟨by simpa using h1, ?_, by simpa using h3⟩
        intro x hx
        simp only [if_false, Bool.false_eq_true] at hx
        rcases List.mem_cons.mp hx with rfl | hx'
        · exact htb
        · exact h2 x hx'

def exBuildA : Build := { token := "tokA", meta := [] }

def exBuildB : Build := { token := "tokB", meta := [] }

theorem ledger_invariant_witness :
    trackBuild [exBuildA] exBuildB = ([exBuildA] ++ [exBuildB], true) ∧
    ((untrackBuild [exBuildA, exBuildB] exBuildB).2 = 1 ∧
     (∀ t ∈ (untrackBuild [exBuildA, exBuildB] exBuildB).1, t.token ≠ exBuildB.token) ∧
     (untrackBuild [exBuildA, exBuildB] exBuildB).1.length + 1 =
       [exBuildA, exBuildB].length) :=
  ⟨(ledger_invariant [exBuildA] exBuildB).2.2.1 (by decide),
   (ledger_invariant [exBuildA, exBuildB] exBuildB).2.2.2.2 (by decide)
     ⟨exBuildB, by decide, rfl⟩⟩

/-- C8 counterexample: the hook created on attach subscribes to seven
events, not the claimed fixed set of six — `pull_request_review_event` is
also requested. -/
theorem setupHooks_events_counterexample :
    (setupHooksHook "https://ci.example.com" "myapp").events ≠
      ["pull_request", "delete", "issue_comment", "pull_request_review",
       "push", "status"] ∧
    "pull_request_review_event" ∈ (setupHooksHook "https://ci.example.com" "myapp").events := by
  decide

/-- C8 amended: the hook subscribes to exactly the seven literal events
of the source (the six claimed plus `pull_request_review_event`), at the
callback URL derived from the server URL and application name, and a
"Hook already exists" error from hook creation is treated as success. -/
theorem setupHooks_spec (serverURL appName : String) :
    (setupHooksHook serverURL appName).events =
      ["pull_request", "delete", "issue_comment", "pull_request_review",
       "pull_request_review_event", "push", "status"] ∧
    (setupHooksHook serverURL appName).configURL =
      serverURL ++ "/cb/github/hook/" ++ appName ∧
    (∀ e, containsSub e "Hook already exists" = true →
       setupHooks none (some e) = .ok) ∧
    setupHooks none none = .ok := by
  refine ⟨rfl, rfl, ?_, rfl⟩
  intro e he
  simp [setupHooks, he]

theorem setupHooks_spec_witness :
    (setupHooksHook "https://ci.example.org" "app2").events =
      ["pull_request", "delete", "issue_comment", "pull_request_review",
       "pull_request_review_event", "push", "status"] ∧
    setupHooks none (some "422 Hook already exists on this repository") = .ok :=
  ⟨(setupHooks_spec "https://ci.example.org" "app2").1,
   (setupHooks_spec "https://ci.example.org" "app2").2.2.1
     "422 Hook already exists on this repository" (by decide)⟩

/-- Shared helper: when the identifier is tracked, `buildPullRequest`
either leaves the map unchanged or overwrites the entry with the old
status carrying the newly returned token. -/
theorem buildPullRequest_prs_tracked
    (cfg : githubConfig) (eng : Engine) (pull : PullRequest) (prs : PRMap)
    (status : pullRequestStatus)
    (hlk : lookupPR prs (pullIDString pull) = some status) :
    (buildPullRequest cfg eng pull prs).prs = prs ∨
    ∃ tok, eng.newBuild (pullIDString pull) (mkBuildConfig pull) = some tok ∧
      (buildPullRequest cfg eng pull prs).prs =
        insertPR prs (pullIDString pull) { status with currentBuild := tok } := by
  unfold buildPullRequest
  cases hgb : eng.getBuild status.currentBuild with
  | some build =>
    cases hsha : build.getMetadata "github:HeadHash" == pull.head.sha with
    | true => left; simp [hlk, hgb, hsha]
    | false =>
      cases hcc : cfg.cancelOnNewCommit with
      | false =>
        cases hnb : eng.newBuild (pullIDString pull) (mkBuildConfig pull) with
        | none => left; simp [hlk, hgb, hsha, hnb, mkBuildConfig_group]
        | some tok =>
          cases hgt : eng.getBuild tok with
          | none => left; simp [hlk, hgb, hsha, hnb, hgt, mkBuildConfig_group]
          | some b2 =>
            right
            exact ⟨tok, rfl, by simp [hlk, hgb, hsha, hnb, hgt, mkBuildConfig_group]⟩
      | true =>
        cases hnb : eng.newBuild (pullIDString pull) (mkBuildConfig pull) with
        | none => left; simp [hlk, hgb, hsha, hnb, mkBuildConfig_group]
        | some tok =>
          cases hgt : eng.getBuild tok with
          | none => left; simp [hlk, hgb, hsha, hnb, hgt, mkBuildConfig_group]
          | some b2 =>
            right
            exact ⟨tok, rfl, by simp [hlk, hgb, hsha, hnb, hgt, mkBuildConfig_group]⟩
  | none =>
    cases hnb : eng.newBuild (pullIDString pull) (mkBuildConfig pull) with
    | none => left; simp [hlk, hgb, hnb, mkBuildConfig_group]
    | some tok =>
      cases hgt : eng.getBuild tok with
      | none => left; simp [hlk, hgb, hnb, hgt, mkBuildConfig_group]
      | some b2 =>
        right
        exact ⟨tok, rfl, by simp [hlk, hgb, hnb, hgt, mkBuildConfig_group]⟩

/-- Shared helper: once the gates pass, `trackPullRequest` is exactly
the fresh-entry upsert followed by `buildPullRequest`. -/
theorem trackPullRequest_gates_passed
    (cfg : githubConfig) (eng : Engine) (event : PullRequestEvent)
    (prs : PRMap) (pull : PullRequest)
    (hp : event.pullRequest = some pull)
    (hcol : eng.isCollaborator pull.base.repo.owner pull.base.repo.name pull.user = .ok true)
    (hbr : cfg.ignoredBranches.contains pull.base.ref = false) :
    trackPullRequest cfg eng event prs =
      buildPullRequest cfg eng pull
        (insertPR prs (pullIDString pull)
          { pull := pull, currentBuild := "", mergeOnPass := false }) := by
  have hbr' : pull.base.ref ∉ cfg.ignoredBranches := by simpa using hbr
  unfold trackPullRequest
  simp [hp, hcol, hbr']

/-- C9 counterexample: with merge-on-pass enabled in the configuration,
the entry created for `exPull` still carries `mergeOnPass = false`, so
the flag is not copied from configuration. -/
theorem mergeOnPass_not_copied_counterexample :
    exCfg.mergeOnPass = true ∧
    lookupPR (trackPullRequest exCfg engOK { pullRequest := some exPull } []).prs
        (pullIDString exPull) =
      some { pull := exPull, currentBuild := "tok1", mergeOnPass := false } := by
  exact ⟨rfl, by decide⟩

/-- C9 amended: when a tracking entry is created for a pull request, its
`mergeOnPass` flag is always `false`; the application's configured
merge-on-pass setting is never consulted. -/
theorem trackPullRequest_mergeOnPass_always_false
    (cfg : githubConfig) (eng : Engine) (event : PullRequestEvent)
    (prs : PRMap) (pull : PullRequest)
    (hp : event.pullRequest = some pull)
    (hcol : eng.isCollaborator pull.base.repo.owner pull.base.repo.name pull.user = .ok true)
    (hbr : cfg.ignoredBranches.contains pull.base.ref = false) :
    ∃ s, lookupPR (trackPullRequest cfg eng event prs).prs (pullIDString pull) = some s ∧
         s.pull = pull ∧ s.mergeOnPass = false := by
  rw [trackPullRequest_gates_passed cfg eng event prs pull hp hcol hbr]
  rcases buildPullRequest_prs_tracked cfg eng pull
      (insertPR prs (pullIDString pull)
        { pull := pull, currentBuild := "", mergeOnPass := false })
      { pull := pull, currentBuild := "", mergeOnPass := false }
      (lookupPR_insertPR_self _ _ _) with h | ⟨tok, _, h⟩
  · exact ⟨{ pull := pull, currentBuild := "", mergeOnPass := false },
      by rw [h]; exact lookupPR_insertPR_self _ _ _, rfl, rfl⟩
  · exact ⟨{ pull := pull, currentBuild := tok, mergeOnPass := false },
      by rw [h]; exact lookupPR_insertPR_self _ _ _, rfl, rfl⟩

theorem trackPullRequest_mergeOnPass_always_false_witness :
    ∃ s, lookupPR (trackPullRequest exCfg engOK { pullRequest := some exPull } []).prs
           (pullIDString exPull) = some s ∧
         s.pull = exPull ∧ s.mergeOnPass = false :=
  trackPullRequest_mergeOnPass_always_false exCfg engOK
    { pullRequest := some exPull } [] exPull rfl rfl rfl

/-- C10: calling `trackPullRequest` for an identifier that is already
tracked unconditionally replaces the stored entry with a fresh one whose
token is empty: the prior build is never stopped (even with
cancel-on-new-commit enabled and the prior token live), one submission is
made bypassing duplicate suppression, and the resulting entry carries the
fresh token (or stays empty when submission or resolution fails) — the
prior token is discarded.  Assumes the engine's lookup of the empty token
fails, per the interface contract that `currentBuild` is empty exactly
when no build has been submitted. -/
theorem trackPullRequest_retrack_discards_token
    (cfg : githubConfig) (eng : Engine) (event : PullRequestEvent)
    (prs : PRMap) (pull : PullRequest) (oldStatus : pullRequestStatus)
    (hp : event.pullRequest = some pull)
    (_hlk : lookupPR prs (pullIDString pull) = some oldStatus)
    (hcol : eng.isCollaborator pull.base.repo.owner pull.base.repo.name pull.user = .ok true)
    (hbr : cfg.ignoredBranches.contains pull.base.ref = false)
    (hge : eng.getBuild "" = none) :
    (trackPullRequest cfg eng event prs).stops = [] ∧
    (trackPullRequest cfg eng event prs).submits =
      [(pullIDString pull, mkBuildConfig pull)] ∧
    lookupPR (trackPullRequest cfg eng event prs).prs (pullIDString pull) =
      some (match eng.newBuild (pullIDString pull) (mkBuildConfig pull) with
            | none => { pull := pull, currentBuild := "", mergeOnPass := false }
            | some tok =>
              match eng.getBuild tok with
              | none => { pull := pull, currentBuild := "", mergeOnPass := false }
              | some _ => { pull := pull, currentBuild := tok, mergeOnPass := false }) := by
  rw [trackPullRequest_gates_passed cfg eng event prs pull hp hcol hbr]
  unfold buildPullRequest
  cases hnb : eng.newBuild (pullIDString pull) (mkBuildConfig pull) with
  | none => simp [lookupPR_insertPR_self, hge, hnb, mkBuildConfig_group]
  | some tok =>
    cases hgt : eng.getBuild tok with
    | none => simp [lookupPR_insertPR_self, hge, hnb, hgt, mkBuildConfig_group]
    | some b => simp [lookupPR_insertPR_self, hge, hnb, hgt, mkBuildConfig_group]

theorem trackPullRequest_retrack_discards_token_witness :
    (trackPullRequest exCfg engSuper { pullRequest := some exPull } exPrsTracked).stops = [] ∧
    (trackPullRequest exCfg engSuper { pullRequest := some exPull } exPrsTracked).submits =
      [(pullIDString exPull, mkBuildConfig exPull)] ∧
    lookupPR (trackPullRequest exCfg engSuper
        { pullRequest := some exPull } exPrsTracked).prs (pullIDString exPull) =
      some (match engSuper.newBuild (pullIDString exPull) (mkBuildConfig exPull) with
            | none => { pull := exPull, currentBuild := "", mergeOnPass := false }
            | some tok =>
              match engSuper.getBuild tok with
              | none => { pull := exPull, currentBuild := "", mergeOnPass := false }
              | some _ => { pull := exPull, currentBuild := tok, mergeOnPass := false }) :=
  trackPullRequest_retrack_discards_token exCfg engSuper
    { pullRequest := some exPull } exPrsTracked exPull
    { pull := exPull, currentBuild := "tokOld", mergeOnPass := false }
    rfl rfl rfl rfl (by decide)

end NgbuildGithub

